import Mathlib

/-!
# glmenu: labels, text boxes and the menu that dispatches pointer events

A shallow embedding of the interaction core of `label.go`, `textbox.go` and
`menu.go`.

Conventions of the embedding:

* `float32` and `float64` values are kept abstract: the sources only add, halve,
  subtract, convert and compare them, so the development is parametric in a carrier
  with exactly these operations (`Float32`, `Float64`).  The only law used is that
  `<` is irreflexive, which holds for IEEE comparison as well (NaN included).
  `Int` is an instance, used to run the model on concrete inputs.
* A Go string is represented by the sequence of runes `[]rune(s)` reads from it, each
  a valid code point.  `glfw.Key` (an `int`) and `rune` (an `int32`) are represented by
  `Int`: the conversion `rune(key)` truncates to 32 bits (`int32`), and `string(r)`
  replaces a rune that is not a valid code point by U+FFFD (`runesToString`).
* Pointers are replaced by values.  A label reaches the window size through its
  `Menu` back pointer; here the two numbers are passed to the operation.
* User callbacks are function values the operations call.  An operation returns the
  new state together with the list of callback invocations it made, in order.  What
  a callback does to the program state is outside the operation and not modelled.
* Calling a nil function value, or slicing out of range, panics; an operation that
  can panic returns an `Option`, `none` standing for the panic.
-/

namespace Glmenu

/-! ## Numbers -/

/-- The `float32` arithmetic the sources use: `+`, `/`, `<` and numeric literals. -/
class Float32 (F : Type) extends Add F, Div F, LT F where
  /-- The value of a numeric literal (`0`, `1`, `2` occur in the sources). -/
  lit : Nat → F
  decLt : (a b : F) → Decidable (a < b)
  lt_irrefl : ∀ a : F, ¬ a < a

instance instDecidableLtFloat32 {F : Type} [Float32 F] (a b : F) : Decidable (a < b) :=
  Float32.decLt a b

/-- The `float64` side: pointer positions, the conversions `float32(x)` and
`float64(x)`, and the subtraction used for the vertical flip. -/
class Float64 (F32 : Type) (F64 : Type) extends Sub F64 where
  toFloat32 : F64 → F32
  ofFloat32 : F32 → F64

instance instFloat32Int : Float32 Int where
  add := fun a b => a + b
  div := fun a b => a / b
  lt := fun a b => a < b
  lit n := (n : Int)
  decLt := fun a b => Int.decLt a b
  lt_irrefl := fun a => Int.lt_irrefl a

instance instFloat64Int : Float64 Int Int where
  sub := fun a b => a - b
  toFloat32 x := x
  ofFloat32 x := x

/-- The `Point` of menu.go. -/
structure Point (F : Type) where
  X : F
  Y : F

/-- A rune (`int32`), by value. -/
abbrev Rune := Int

/-- A key identifier (`glfw.Key`, an integer type). -/
abbrev Key := Int

/-- Modelled from the spec: the mouse-button enum of the windowing collaborator,
`Left, Middle, Right, Unclicked`; its declaration is not part of the three files. -/
inductive MouseClick where
  | MouseLeft
  | MouseMiddle
  | MouseRight
  | MouseUnclicked
deriving DecidableEq, Repr

/-! ## The text-rendering collaborator (`gltext`) -/

/-- Modelled from the spec: the font handle of the text-rendering collaborator. The
interaction core only asks it whether a glyph exists (`hasGlyph`). -/
structure Font where
  HasRune : Rune → Bool

/-- Modelled from the spec: the text handle of the text-rendering collaborator, with
the fields the three files read (`String`, the bounding-box corners `X1` and `X2`,
`SetPositionX`, `SetPositionY`, `ScaleMin`, `RuneCount`) and the values its setters
store (`Scale`, `Color`). -/
structure Text (F : Type) where
  Font : Font
  String : List Rune
  X1 : Point F
  X2 : Point F
  SetPositionX : F
  SetPositionY : F
  Scale : F
  ScaleMin : F
  RuneCount : Int
  Color : List F

/-- Modelled from the spec: `TextHandle.setString(str)` stores the string. -/
def Text.SetString {F : Type} (t : Text F) (str : List Rune) : Text F :=
  { t with String := str }

/-- An operand of type `interface{}` handed on to the collaborator for formatting; only
its identity is kept. -/
structure Arg where
  tag : Nat
deriving DecidableEq, Repr

/-- Modelled from the spec: `TextHandle.setString` handed a format string and operands
stores the text the collaborator formats from them. The formatter belongs to the
collaborator and is a parameter. -/
def Text.SetStringf {F : Type} (format : List Rune → List Arg → List Rune) (t : Text F)
    (fs : List Rune) (argv : List Arg) : Text F :=
  { t with String := format fs argv }

/-- Modelled from the spec: `TextHandle.setPosition(x, y)` stores the position. -/
def Text.SetPosition {F : Type} (t : Text F) (x y : F) : Text F :=
  { t with SetPositionX := x, SetPositionY := y }

/-- Modelled from the spec: `TextHandle.setScale(s)` stores the scale. -/
def Text.SetScale {F : Type} (t : Text F) (s : F) : Text F :=
  { t with Scale := s }

/-- Modelled from the spec: `TextHandle.setColor(...)` stores the colour. -/
def Text.SetColor {F : Type} (t : Text F) (c : List F) : Text F :=
  { t with Color := c }

/-- Modelled from the spec: `TextHandle.hasGlyph(key)`. -/
def Text.HasRune {F : Type} (t : Text F) (r : Rune) : Bool :=
  t.Font.HasRune r

/-! ## label.go -/

/-- A bound `LabelInteraction`. Go function values cannot be compared with each
other, so the model keeps a tag that tells the bound functions apart. -/
structure LabelInteraction where
  tag : Nat
deriving DecidableEq, Repr

/-- A bound `OnNotHover` function. -/
structure LabelNotHover where
  tag : Nat
deriving DecidableEq, Repr

/-- The fields of `Label` other than `Menu` (replaced by the window size passed to the
operations) and `Shadow`. -/
structure LabelFields (F : Type) where
  Text : Text F
  IsHover : Bool
  IsClick : Bool
  OnClick : Option LabelInteraction
  OnRelease : Option LabelInteraction
  OnHover : Option LabelInteraction
  OnNotHover : Option LabelNotHover

/-- The `Shadow` of label.go: an embedded `Label` and an offset. The embedded label's
own `Shadow` pointer is never assigned by the package and stays nil. -/
structure Shadow (F : Type) where
  Label : LabelFields F
  Offset : F

/-- The `Label` of label.go. -/
structure Label (F : Type) extends LabelFields F where
  Shadow : Option (Shadow F)

/-- Which `*Label` a callback receives: the label itself or `&label.Shadow.Label`. -/
inductive Receiver where
  | self
  | shadow
deriving DecidableEq, Repr

/-- One invocation of a `LabelInteraction`, with its arguments. -/
structure Call (F64 : Type) where
  fn : LabelInteraction
  receiver : Receiver
  xPos : F64
  yPos : F64
  button : MouseClick
  isInBoundingBox : Bool
deriving DecidableEq

section LabelOps

variable {F32 F64 : Type} [Float32 F32] [Float64 F32 F64]

/-- `Label.Reset`. -/
def Label.Reset (label : Label F32) : Label F32 :=
  let label := { label with Text := label.Text.SetScale label.Text.ScaleMin }
  match label.Shadow with
  | some sh =>
    { label with
      Shadow := some { sh with
        Label := { sh.Label with Text := sh.Label.Text.SetScale label.Text.ScaleMin } } }
  | none => label

/-- `Label.OrthoToScreenCoord`; `WindowWidth` and `WindowHeight` are those of
`label.Menu`. -/
def Label.OrthoToScreenCoord (label : Label F32) (WindowWidth WindowHeight : F32) :
    Point F32 × Point F32 :=
  ({ X := label.Text.X1.X + WindowWidth / Float32.lit 2,
     Y := label.Text.X1.Y + WindowHeight / Float32.lit 2 },
   { X := label.Text.X2.X + WindowWidth / Float32.lit 2,
     Y := label.Text.X2.Y + WindowHeight / Float32.lit 2 })

/-- The expression bound to `inBox` in `IsClicked`, `IsReleased` and `IsHovered`:
`float32(xPos) > X1.X && float32(xPos) < X2.X && float32(yPos) > X1.Y && float32(yPos) < X2.Y`. -/
def inBox (X1 X2 : Point F32) (xPos yPos : F64) : Bool :=
  decide (X1.X < (Float64.toFloat32 xPos : F32)) && decide ((Float64.toFloat32 xPos : F32) < X2.X)
    && decide (X1.Y < (Float64.toFloat32 yPos : F32)) && decide ((Float64.toFloat32 yPos : F32) < X2.Y)

/-- `Label.IsClicked`. -/
def Label.IsClicked (label : Label F32) (WindowWidth WindowHeight : F32)
    (xPos yPos : F64) (button : MouseClick) : Label F32 × List (Call F64) :=
  let X := label.OrthoToScreenCoord WindowWidth WindowHeight
  let hit := inBox X.1 X.2 xPos yPos
  if hit then
    let label := { label with IsClick := true }
    match label.OnClick with
    | some f => (label, [{ fn := f, receiver := Receiver.self, xPos := xPos, yPos := yPos,
                           button := button, isInBoundingBox := hit }])
    | none => (label, [])
  else
    (label, [])

/-- `Label.IsReleased`. -/
def Label.IsReleased (label : Label F32) (WindowWidth WindowHeight : F32)
    (xPos yPos : F64) (button : MouseClick) : Label F32 × List (Call F64) :=
  let X := label.OrthoToScreenCoord WindowWidth WindowHeight
  let hit := inBox X.1 X.2 xPos yPos
  let calls : List (Call F64) :=
    if label.IsClick then
      match label.OnRelease with
      | some f => [{ fn := f, receiver := Receiver.self, xPos := xPos, yPos := yPos,
                     button := button, isInBoundingBox := hit }]
      | none => []
    else []
  ({ label with IsClick := false }, calls)

/-- `Label.IsHovered`. `label.OnHover` is called without a nil check: on a hit with
`OnHover` unbound the call panics (`none`). -/
def Label.IsHovered (label : Label F32) (WindowWidth WindowHeight : F32)
    (xPos yPos : F64) : Option (Label F32 × List (Call F64)) :=
  let X := label.OrthoToScreenCoord WindowWidth WindowHeight
  let hit := inBox X.1 X.2 xPos yPos
  let label := { label with IsHover := hit }
  if hit then
    match label.OnHover with
    | none => none
    | some f =>
      let first : Call F64 :=
        { fn := f, receiver := Receiver.self, xPos := xPos, yPos := yPos,
          button := MouseClick.MouseUnclicked, isInBoundingBox := hit }
      match label.Shadow with
      | some _ =>
        some (label, [first, { first with receiver := Receiver.shadow }])
      | none => some (label, [first])
  else
    some (label, [])

end LabelOps

/-! ## textbox.go -/

/-- A bound `TextBoxInteraction`, identified by a tag. -/
structure TextBoxInteraction where
  tag : Nat
deriving DecidableEq, Repr

/-- The `TextBox` of textbox.go, without its `Menu` pointer, its blink timestamp and
its OpenGL handles. -/
structure TextBox (F : Type) where
  Text : Text F
  OnClick : Option TextBoxInteraction
  IsClick : Bool
  OnRelease : Option TextBoxInteraction
  MaxLength : Int
  CursorBarFrequency : Int
  IsEdit : Bool
  X1 : Point F
  X2 : Point F
  BorderWidth : Int
  Height : Int
  Width : Int

/-- One invocation of a `TextBoxInteraction`; the receiver is the text box itself. -/
structure TextBoxCall (F64 : Type) where
  fn : TextBoxInteraction
  xPos : F64
  yPos : F64
  button : MouseClick
  isInBoundingBox : Bool
deriving DecidableEq

/-- The string literal `"|"`, the cursor bar. -/
def bar : List Rune := [124]

/-- The key code `glfw.KeyBackspace` (GLFW_KEY_BACKSPACE, 259). -/
def KeyBackspace : Key := 259

/-- Conversion of an integer to `int32`: the low 32 bits, in two's complement. -/
def int32 (x : Int) : Int :=
  (x + 2147483648) % 4294967296 - 2147483648

/-- The conversion `rune(key)` of a `glfw.Key` (an `int`) to a rune (an `int32`). -/
def rune (key : Key) : Rune :=
  int32 key

/-- The code point `string(r)` writes for one rune: the rune itself when it is a valid
code point (`0..0xD7FF` or `0xE000..0x10FFFF`), U+FFFD otherwise. -/
def validRune (r : Rune) : Rune :=
  if (0 ≤ r ∧ r < 55296) ∨ (57344 ≤ r ∧ r ≤ 1114111) then r else 65533

/-- The conversion `string(r)` of a rune slice, read back as runes. -/
def runesToString (r : List Rune) : List Rune :=
  r.map validRune

/-- The value `TextBox.AddCharacter` gives its local variable `theRune`:
`rune(key) + 32` when shift is not held and `65 <= key <= 90`, `rune(key)` otherwise. -/
def theRune (key : Key) (withShift : Bool) : Rune :=
  if !withShift && decide (key ≥ 65) && decide (key ≤ 90) then int32 (rune key + 32)
  else rune key

section TextBoxOps

variable {F32 F64 : Type} [Float32 F32] [Float64 F32 F64]

/-- `TextBox.SetString`. With no operands the text is `str + "|"`; with operands the
call `textbox.Text.SetString(str+"|", argv)` hands the format string `str + "|"` and the
operand slice to the collaborator, whose formatter `format` makes the text. -/
def TextBox.SetString (textbox : TextBox F32) (format : List Rune → List Arg → List Rune)
    (str : List Rune) (argv : List Arg) : TextBox F32 :=
  if argv.length = 0 then
    { textbox with Text := textbox.Text.SetString (str ++ bar) }
  else
    { textbox with Text := textbox.Text.SetStringf format (str ++ bar) argv }

/-- `TextBox.AddCharacter`. The slice expression `r[0 : len(r)-1]` panics when the
rendered string is empty (`none`). -/
def TextBox.AddCharacter (textbox : TextBox F32) (key : Key) (withShift : Bool) :
    Option (TextBox F32) :=
  if textbox.Text.HasRune (rune key) then
    let theRune : Rune := theRune key withShift
    let r := textbox.Text.String
    if r.length = 0 then none
    else
      let r := r.take (r.length - 1)
      let r := r ++ [theRune]
      let text := textbox.Text.SetString (runesToString r ++ bar)
      some { textbox with Text := text.SetPosition text.SetPositionX text.SetPositionY }
  else
    some textbox

/-- `TextBox.Backspace`. The runes it writes back were read from the stored string, so
`string(r)` returns them as they are. -/
def TextBox.Backspace (textbox : TextBox F32) : TextBox F32 :=
  if textbox.IsEdit then
    let r := textbox.Text.String
    if r.length > 1 then
      let r := r.take (r.length - 2)
      let text := textbox.Text.SetString (r ++ bar)
      { textbox with Text := text.SetPosition text.SetPositionX text.SetPositionY }
    else textbox
  else textbox

/-- `TextBox.KeyPress`. -/
def TextBox.KeyPress (textbox : TextBox F32) (key : Key) (withShift : Bool) :
    Option (TextBox F32) :=
  if key = KeyBackspace then some textbox.Backspace
  else textbox.AddCharacter key withShift

/-- `TextBox.OrthoToScreenCoord`; the window size is that of `textbox.Menu`. -/
def TextBox.OrthoToScreenCoord (textbox : TextBox F32) (WindowWidth WindowHeight : F32) :
    Point F32 × Point F32 :=
  ({ X := textbox.Text.X1.X + WindowWidth / Float32.lit 2,
     Y := textbox.Text.X1.Y + WindowHeight / Float32.lit 2 },
   { X := textbox.Text.X2.X + WindowWidth / Float32.lit 2,
     Y := textbox.Text.X2.Y + WindowHeight / Float32.lit 2 })

/-- `TextBox.IsClicked`. -/
def TextBox.IsClicked (textbox : TextBox F32) (WindowWidth WindowHeight : F32)
    (xPos yPos : F64) (button : MouseClick) : TextBox F32 × List (TextBoxCall F64) :=
  let X := textbox.OrthoToScreenCoord WindowWidth WindowHeight
  let hit := inBox X.1 X.2 xPos yPos
  if hit then
    let textbox := { textbox with IsClick := true }
    match textbox.OnClick with
    | some f => (textbox, [{ fn := f, xPos := xPos, yPos := yPos, button := button,
                             isInBoundingBox := hit }])
    | none => (textbox, [])
  else
    ({ textbox with IsEdit := false }, [])

/-- `TextBox.IsReleased`. -/
def TextBox.IsReleased (textbox : TextBox F32) (WindowWidth WindowHeight : F32)
    (xPos yPos : F64) (button : MouseClick) : TextBox F32 × List (TextBoxCall F64) :=
  let X := textbox.OrthoToScreenCoord WindowWidth WindowHeight
  let hit := inBox X.1 X.2 xPos yPos
  if textbox.IsClick then
    let textbox := { textbox with IsEdit := true }
    match textbox.OnRelease with
    | some f => ({ textbox with IsClick := false },
                 [{ fn := f, xPos := xPos, yPos := yPos, button := button,
                    isInBoundingBox := hit }])
    | none => ({ textbox with IsClick := false }, [])
  else
    ({ textbox with IsClick := false }, [])

end TextBoxOps

/-! ## menu.go -/

/-- The `Menu` of menu.go, without its OpenGL handles and buffers. -/
structure Menu (F : Type) where
  Visible : Bool
  ShowOn : Key
  Height : F
  Width : F
  IsAutoCenter : Bool
  lowerLeft : Point F
  Font : Font
  Labels : List (Label F)
  TextScaleRate : F
  WindowWidth : F
  WindowHeight : F

section MenuOps

variable {F32 F64 : Type} [Float32 F32] [Float64 F32 F64]

/-- `Label.Load`; `loaded` is the handle `gltext.LoadText(font)` returns. -/
def Label.Load (label : Label F32) (loaded : Text F32) : Label F32 :=
  { label with Text := loaded }

/-- `Menu.AddLabel`; `loaded` is the handle `gltext.LoadText(menu.Font)` returns. -/
def Menu.AddLabel (menu : Menu F32) (label : Label F32) (str : List Rune)
    (loaded : Text F32) : Menu F32 :=
  let label := label.Load loaded
  let label := { label with Text := label.Text.SetString str }
  let label := { label with Text := label.Text.SetScale (Float32.lit 1) }
  let label := { label with Text := label.Text.SetPosition (Float32.lit 0) (Float32.lit 0) }
  let black : List F32 := [Float32.lit 0, Float32.lit 0, Float32.lit 0, Float32.lit 1]
  let label := { label with Text := label.Text.SetColor black }
  { menu with Labels := menu.Labels ++ [label] }

/-- `Menu.Toggle`. -/
def Menu.Toggle (menu : Menu F32) : Menu F32 :=
  { menu with Visible := !menu.Visible, Labels := menu.Labels.map Label.Reset }

/-- The loop of `Menu.ScreenClick` from index `i` on: every label is handed the
position. The guard `label.IsClicked != nil` tests a method value and always holds. -/
def clickLabels (WindowWidth WindowHeight : F32) (xPos yPos : F64) (button : MouseClick) :
    Nat → List (Label F32) → List (Label F32) × List (Nat × Call F64)
  | _, [] => ([], [])
  | i, label :: rest =>
    let r := label.IsClicked WindowWidth WindowHeight xPos yPos button
    let rs := clickLabels WindowWidth WindowHeight xPos yPos button (i + 1) rest
    (r.1 :: rs.1, r.2.map (fun c => (i, c)) ++ rs.2)

/-- `Menu.ScreenClick`. The call in menu.go passes no button to `IsClicked`; the
button handed on is a parameter here. Each logged call carries the index of the label
that made it. -/
def Menu.ScreenClick (menu : Menu F32) (xPos yPos : F64) (button : MouseClick) :
    Menu F32 × List (Nat × Call F64) :=
  if !menu.Visible then (menu, [])
  else
    let yPos := Float64.ofFloat32 menu.WindowHeight - yPos
    let r := clickLabels menu.WindowWidth menu.WindowHeight xPos yPos button 0 menu.Labels
    ({ menu with Labels := r.1 }, r.2)

/-- The loop of `Menu.ScreenHover` from index `i` on; a panic in `IsHovered` ends it. -/
def hoverLabels (WindowWidth WindowHeight : F32) (xPos yPos : F64) :
    Nat → List (Label F32) → Option (List (Label F32) × List (Nat × Call F64))
  | _, [] => some ([], [])
  | i, label :: rest =>
    match label.IsHovered WindowWidth WindowHeight xPos yPos with
    | none => none
    | some r =>
      match hoverLabels WindowWidth WindowHeight xPos yPos (i + 1) rest with
      | none => none
      | some rs => some (r.1 :: rs.1, r.2.map (fun c => (i, c)) ++ rs.2)

/-- `Menu.ScreenHover`. The guard `label.IsHovered != nil` tests a method value and
always holds. -/
def Menu.ScreenHover (menu : Menu F32) (xPos yPos : F64) :
    Option (Menu F32 × List (Nat × Call F64)) :=
  if !menu.Visible then some (menu, [])
  else
    let yPos := Float64.ofFloat32 menu.WindowHeight - yPos
    match hoverLabels menu.WindowWidth menu.WindowHeight xPos yPos 0 menu.Labels with
    | none => none
    | some r => some ({ menu with Labels := r.1 }, r.2)

end MenuOps

/-! ## Derived notions and concrete inputs -/

section Derived

variable {F32 F64 : Type} [Float32 F32] [Float64 F32 F64]

/-- The hit result the three label operations compute for a pointer position. -/
def Label.hit (label : Label F32) (WindowWidth WindowHeight : F32) (xPos yPos : F64) : Bool :=
  inBox (label.OrthoToScreenCoord WindowWidth WindowHeight).1
    (label.OrthoToScreenCoord WindowWidth WindowHeight).2 xPos yPos

/-- The hit result the text box operations compute for a pointer position. -/
def TextBox.hit (textbox : TextBox F32) (WindowWidth WindowHeight : F32) (xPos yPos : F64) :
    Bool :=
  inBox (textbox.OrthoToScreenCoord WindowWidth WindowHeight).1
    (textbox.OrthoToScreenCoord WindowWidth WindowHeight).2 xPos yPos

/-- The callbacks `Label.IsHovered` invokes when it returns: none on a miss; on a hit
`OnHover` for the label and, when a shadow is attached, once more for the shadow. -/
def Label.hoverCalls (label : Label F32) (WindowWidth WindowHeight : F32) (xPos yPos : F64) :
    List (Call F64) :=
  if label.hit WindowWidth WindowHeight xPos yPos then
    match label.OnHover with
    | none => []
    | some f =>
      match label.Shadow with
      | some _ =>
        [{ fn := f, receiver := Receiver.self, xPos := xPos, yPos := yPos,
           button := MouseClick.MouseUnclicked, isInBoundingBox := true },
         { fn := f, receiver := Receiver.shadow, xPos := xPos, yPos := yPos,
           button := MouseClick.MouseUnclicked, isInBoundingBox := true }]
      | none =>
        [{ fn := f, receiver := Receiver.self, xPos := xPos, yPos := yPos,
           button := MouseClick.MouseUnclicked, isInBoundingBox := true }]
  else []

end Derived

/-- A font with the glyph range `Menu.Load` asks for (`LoadTruetype(fd, scale, 32, 127)`). -/
def asciiFont : Font :=
  { HasRune := fun r => decide (32 ≤ r) && decide (r ≤ 127) }

/-- A text whose bounding box is `(0,0)-(10,10)`. -/
def boxText : Text Int :=
  { Font := asciiFont, String := [], X1 := { X := 0, Y := 0 }, X2 := { X := 10, Y := 10 },
    SetPositionX := 0, SetPositionY := 0, Scale := 1, ScaleMin := 1, RuneCount := 0,
    Color := [] }

/-- A label over `boxText` with all four callbacks bound and no shadow. In a window of
size `0 x 0` its screen box is `(0,0)-(10,10)`. -/
def boxLabel : Label Int :=
  { Text := boxText, IsHover := false, IsClick := false,
    OnClick := some { tag := 1 }, OnRelease := some { tag := 2 },
    OnHover := some { tag := 3 }, OnNotHover := some { tag := 4 }, Shadow := none }

/-- The label `boxLabel` with a press pending. -/
def pressedLabel : Label Int :=
  { boxLabel with IsClick := true }

/-- A label over `boxText` with no callback bound, as `Menu.AddLabel` leaves it. -/
def plainLabel : Label Int :=
  { Text := boxText, IsHover := false, IsClick := false, OnClick := none, OnRelease := none,
    OnHover := none, OnNotHover := none, Shadow := none }

/-- A hovered label grown to scale 3 (minimum scale 1) with a shadow, also at scale 3,
whose own minimum scale is 2. -/
def grownLabel : Label Int :=
  { boxLabel with
    Text := { boxText with Scale := 3 },
    IsHover := true,
    Shadow := some
      { Label :=
          { Text := { boxText with Scale := 3, ScaleMin := 2 }, IsHover := false,
            IsClick := false, OnClick := some { tag := 1 }, OnRelease := some { tag := 2 },
            OnHover := some { tag := 3 }, OnNotHover := some { tag := 4 } },
        Offset := 1 } }

/-- The stored buffer of a text box: the rendered string without its last rune, the
cursor bar. -/
def TextBox.buffer {F : Type} (textbox : TextBox F) : List Rune :=
  textbox.Text.String.dropLast

/-- A call of one of the two editing entry points of a text box. -/
inductive TextBoxOp where
  | SetString (str : List Rune) (argv : List Arg)
  | KeyPress (key : Key) (withShift : Bool)

/-- Runs a sequence of `SetString` and `KeyPress` calls, first to last. -/
def TextBox.run {F32 : Type} (format : List Rune → List Arg → List Rune)
    (textbox : TextBox F32) : List TextBoxOp → Option (TextBox F32)
  | [] => some textbox
  | TextBoxOp.SetString str argv :: ops =>
    TextBox.run format (textbox.SetString format str argv) ops
  | TextBoxOp.KeyPress key withShift :: ops =>
    match textbox.KeyPress key withShift with
    | none => none
    | some next => TextBox.run format next ops

/-- A formatter that returns the format string and ignores the operands; it stands in
for the collaborator's formatter where no operands are passed. -/
def echoFormat (fs : List Rune) (_argv : List Arg) : List Rune :=
  fs

/-- A font loaded with the glyph range `32..65535` (`LoadTruetype(fd, scale, 32, 65535)`). -/
def wideFont : Font :=
  { HasRune := fun r => decide (32 ≤ r) && decide (r ≤ 65535) }

/-- A text box in edit mode over `boxText`, with nothing rendered yet. -/
def editBox : TextBox Int :=
  { Text := boxText, OnClick := some { tag := 5 }, IsClick := false,
    OnRelease := some { tag := 6 }, MaxLength := 0, CursorBarFrequency := 500000000,
    IsEdit := true, X1 := { X := -5, Y := -5 }, X2 := { X := 5, Y := 5 },
    BorderWidth := 1, Height := 10, Width := 10 }

/-- The text box `editBox` over the font `wideFont`. -/
def wideBox : TextBox Int :=
  { editBox with Text := { boxText with Font := wideFont } }

/-- A menu over a window of size `0 x 20` holding the given labels. -/
def boxMenu (visible : Bool) (labels : List (Label Int)) : Menu Int :=
  { Visible := visible, ShowOn := 77, Height := 0, Width := 0, IsAutoCenter := false,
    lowerLeft := { X := 0, Y := 0 }, Font := asciiFont, Labels := labels,
    TextScaleRate := 0, WindowWidth := 0, WindowHeight := 20 }

/-- A call that cannot bring a cursor bar into the buffer. A `SetString` without
operands whose string holds no bar; a `SetString` with operands whose formatted text is
a bar-free text followed by the bar; a `KeyPress` whose key does not convert to the
bar's code, `rune(key) = 124`, while the font has that glyph. -/
def TextBoxOp.barFree (format : List Rune → List Arg → List Rune) (font : Font) :
    TextBoxOp → Prop
  | TextBoxOp.SetString str argv =>
    (argv = [] → (124 : Rune) ∉ str) ∧
    (argv ≠ [] → ∃ t, format (str ++ bar) argv = t ++ bar ∧ (124 : Rune) ∉ t)
  | TextBoxOp.KeyPress key _ => rune key ≠ 124 ∨ font.HasRune 124 = false

/-! ## Hit test -/

section HitTest

variable {F32 F64 : Type} [Float32 F32] [Float64 F32 F64]

theorem inBox_eq_true_iff (X1 X2 : Point F32) (xPos yPos : F64) :
    inBox X1 X2 xPos yPos = true ↔
      X1.X < (Float64.toFloat32 xPos : F32) ∧ (Float64.toFloat32 xPos : F32) < X2.X ∧
      X1.Y < (Float64.toFloat32 yPos : F32) ∧ (Float64.toFloat32 yPos : F32) < X2.Y := by
  simp [inBox, Bool.and_eq_true, decide_eq_true_iff, and_assoc]

theorem inBox_boundary (X1 X2 : Point F32) (xPos yPos : F64)
    (h : (Float64.toFloat32 xPos : F32) = X1.X ∨ (Float64.toFloat32 xPos : F32) = X2.X ∨
      (Float64.toFloat32 yPos : F32) = X1.Y ∨ (Float64.toFloat32 yPos : F32) = X2.Y) :
    inBox X1 X2 xPos yPos = false := by
  cases hb : inBox X1 X2 xPos yPos with
  | false => rfl
  | true =>
    exfalso
    obtain ⟨h1, h2, h3, h4⟩ := (inBox_eq_true_iff X1 X2 xPos yPos).1 hb
    rcases h with h | h | h | h
    · rw [h] at h1; exact Float32.lt_irrefl _ h1
    · rw [h] at h2; exact Float32.lt_irrefl _ h2
    · rw [h] at h3; exact Float32.lt_irrefl _ h3
    · rw [h] at h4; exact Float32.lt_irrefl _ h4

theorem Label_IsClicked_of_hit (label : Label F32) (W H : F32) (xPos yPos : F64)
    (button : MouseClick) (h : label.hit W H xPos yPos = true) :
    label.IsClicked W H xPos yPos button =
      ({ label with IsClick := true },
        match label.OnClick with
        | some f => [{ fn := f, receiver := Receiver.self, xPos := xPos, yPos := yPos,
                       button := button, isInBoundingBox := true }]
        | none => []) := by
  unfold Label.hit at h
  unfold Label.IsClicked
  simp only [h, if_true]
  cases label.OnClick <;> rfl

theorem Label_IsClicked_of_miss (label : Label F32) (W H : F32) (xPos yPos : F64)
    (button : MouseClick) (h : label.hit W H xPos yPos = false) :
    label.IsClicked W H xPos yPos button = (label, []) := by
  unfold Label.hit at h
  unfold Label.IsClicked
  simp [h]

theorem Label_hit_iff (label : Label F32) (W H : F32) (xPos yPos : F64) :
    label.hit W H xPos yPos = true ↔
      label.Text.X1.X + W / Float32.lit 2 < (Float64.toFloat32 xPos : F32) ∧
      (Float64.toFloat32 xPos : F32) < label.Text.X2.X + W / Float32.lit 2 ∧
      label.Text.X1.Y + H / Float32.lit 2 < (Float64.toFloat32 yPos : F32) ∧
      (Float64.toFloat32 yPos : F32) < label.Text.X2.Y + H / Float32.lit 2 := by
  unfold Label.hit
  rw [inBox_eq_true_iff]
  rfl

/-- C1: `Label.IsClicked` shifts the corners of the text's bounding box by half the
window size, and the pointer is a hit exactly when it lies strictly between the shifted
corners on both axes. On a hit the label gets `IsClick = true` and `OnClick`, when bound,
is invoked once with `inBox = true`; on a miss, and so at every point on the boundary,
no callback is invoked and the label is unchanged. -/
theorem Label_IsClicked_strict_hit (label : Label F32) (W H : F32) (xPos yPos : F64)
    (button : MouseClick) :
    (label.OrthoToScreenCoord W H =
      ({ X := label.Text.X1.X + W / Float32.lit 2, Y := label.Text.X1.Y + H / Float32.lit 2 },
       { X := label.Text.X2.X + W / Float32.lit 2, Y := label.Text.X2.Y + H / Float32.lit 2 })) ∧
    (label.hit W H xPos yPos = true ↔
      label.Text.X1.X + W / Float32.lit 2 < (Float64.toFloat32 xPos : F32) ∧
      (Float64.toFloat32 xPos : F32) < label.Text.X2.X + W / Float32.lit 2 ∧
      label.Text.X1.Y + H / Float32.lit 2 < (Float64.toFloat32 yPos : F32) ∧
      (Float64.toFloat32 yPos : F32) < label.Text.X2.Y + H / Float32.lit 2) ∧
    (label.hit W H xPos yPos = true →
      label.IsClicked W H xPos yPos button =
        ({ label with IsClick := true },
          match label.OnClick with
          | some f => [{ fn := f, receiver := Receiver.self, xPos := xPos, yPos := yPos,
                         button := button, isInBoundingBox := true }]
          | none => [])) ∧
    (label.hit W H xPos yPos = false →
      label.IsClicked W H xPos yPos button = (label, [])) ∧
    (((Float64.toFloat32 xPos : F32) = label.Text.X1.X + W / Float32.lit 2 ∨
      (Float64.toFloat32 xPos : F32) = label.Text.X2.X + W / Float32.lit 2 ∨
      (Float64.toFloat32 yPos : F32) = label.Text.X1.Y + H / Float32.lit 2 ∨
      (Float64.toFloat32 yPos : F32) = label.Text.X2.Y + H / Float32.lit 2) →
      label.hit W H xPos yPos = false ∧
      label.IsClicked W H xPos yPos button = (label, [])) := by
  refine ⟨rfl, Label_hit_iff label W H xPos yPos, Label_IsClicked_of_hit label W H xPos yPos button,
    Label_IsClicked_of_miss label W H xPos yPos button, ?_⟩
  intro hb
  have hm : label.hit W H xPos yPos = false := by
    unfold Label.hit
    exact inBox_boundary _ _ xPos yPos hb
  exact ⟨hm, Label_IsClicked_of_miss label W H xPos yPos button hm⟩

/-- The screen box `(0,0)-(10,10)`: the boundary points `(0,5)`, `(10,5)`, `(5,0)`,
`(5,10)` and the outside point `(-1,5)` are misses, `(5,5)` is a hit that sets `IsClick`
and invokes `OnClick` once. -/
theorem Label_IsClicked_strict_hit_witness :
    boxLabel.OrthoToScreenCoord (0 : Int) 0 = ({ X := 0, Y := 0 }, { X := 10, Y := 10 }) ∧
    boxLabel.IsClicked (0 : Int) 0 (0 : Int) 5 MouseClick.MouseLeft = (boxLabel, []) ∧
    boxLabel.IsClicked (0 : Int) 0 (10 : Int) 5 MouseClick.MouseLeft = (boxLabel, []) ∧
    boxLabel.IsClicked (0 : Int) 0 (5 : Int) 0 MouseClick.MouseLeft = (boxLabel, []) ∧
    boxLabel.IsClicked (0 : Int) 0 (5 : Int) 10 MouseClick.MouseLeft = (boxLabel, []) ∧
    boxLabel.IsClicked (0 : Int) 0 (-1 : Int) 5 MouseClick.MouseLeft = (boxLabel, []) ∧
    boxLabel.IsClicked (0 : Int) 0 (5 : Int) 5 MouseClick.MouseLeft =
      ({ boxLabel with IsClick := true },
        [{ fn := { tag := 1 }, receiver := Receiver.self, xPos := 5, yPos := 5,
           button := MouseClick.MouseLeft, isInBoundingBox := true }]) :=
  ⟨rfl,
   ((Label_IsClicked_strict_hit boxLabel 0 0 (0 : Int) 5 MouseClick.MouseLeft).2.2.2.2
      (Or.inl rfl)).2,
   ((Label_IsClicked_strict_hit boxLabel 0 0 (10 : Int) 5 MouseClick.MouseLeft).2.2.2.2
      (Or.inr (Or.inl rfl))).2,
   ((Label_IsClicked_strict_hit boxLabel 0 0 (5 : Int) 0 MouseClick.MouseLeft).2.2.2.2
      (Or.inr (Or.inr (Or.inl rfl)))).2,
   ((Label_IsClicked_strict_hit boxLabel 0 0 (5 : Int) 10 MouseClick.MouseLeft).2.2.2.2
      (Or.inr (Or.inr (Or.inr rfl)))).2,
   (Label_IsClicked_strict_hit boxLabel 0 0 (-1 : Int) 5 MouseClick.MouseLeft).2.2.2.1
      (by decide),
   (Label_IsClicked_strict_hit boxLabel 0 0 (5 : Int) 5 MouseClick.MouseLeft).2.2.1
      (by decide)⟩

end HitTest

/-! ## Press and release of a label -/

section PressRelease

variable {F32 F64 : Type} [Float32 F32] [Float64 F32 F64]

theorem Label_IsReleased_fst (label : Label F32) (W H : F32) (xPos yPos : F64)
    (button : MouseClick) :
    (label.IsReleased W H xPos yPos button).1 = { label with IsClick := false } := rfl

theorem Label_IsReleased_snd (label : Label F32) (W H : F32) (xPos yPos : F64)
    (button : MouseClick) :
    (label.IsReleased W H xPos yPos button).2 =
      (match label.IsClick, label.OnRelease with
       | true, some f => [{ fn := f, receiver := Receiver.self, xPos := xPos, yPos := yPos,
                            button := button, isInBoundingBox := label.hit W H xPos yPos }]
       | _, _ => []) := by
  unfold Label.IsReleased Label.hit
  cases label.IsClick <;> cases label.OnRelease <;> rfl

/-- C2: `Label.IsReleased` invokes `OnRelease`, when bound, if and only if `IsClick` was
true before the call, and passes the hit result of the release position: a press inside
followed by a release outside fires `OnRelease` with `inBox = false`, a release with no
press pending fires nothing. Afterwards `IsClick` is false in every case and nothing else
of the label has changed. -/
theorem Label_IsReleased_fires_iff_pending (label : Label F32) (W H : F32) (xPos yPos : F64)
    (button : MouseClick) :
    (label.IsReleased W H xPos yPos button).1 = { label with IsClick := false } ∧
    (label.IsReleased W H xPos yPos button).1.IsClick = false ∧
    (label.IsReleased W H xPos yPos button).2 =
      (match label.IsClick, label.OnRelease with
       | true, some f => [{ fn := f, receiver := Receiver.self, xPos := xPos, yPos := yPos,
                            button := button, isInBoundingBox := label.hit W H xPos yPos }]
       | _, _ => []) ∧
    ((label.IsReleased W H xPos yPos button).2 ≠ [] ↔
      (label.IsClick = true ∧ label.OnRelease ≠ none)) ∧
    (∀ (x0 y0 : F64) (b0 : MouseClick),
      label.hit W H x0 y0 = true → label.hit W H xPos yPos = false →
      ((label.IsClicked W H x0 y0 b0).1.IsReleased W H xPos yPos button).2 =
        (match label.OnRelease with
         | some f => [{ fn := f, receiver := Receiver.self, xPos := xPos, yPos := yPos,
                        button := button, isInBoundingBox := false }]
         | none => [])) ∧
    (∀ (x0 y0 : F64) (b0 : MouseClick),
      label.IsClick = false → label.hit W H x0 y0 = false →
      (label.IsClicked W H x0 y0 b0).2 = [] ∧
      (label.IsClicked W H x0 y0 b0).1.IsClick = false ∧
      ((label.IsClicked W H x0 y0 b0).1.IsReleased W H xPos yPos button).2 = []) ∧
    (label.IsClick = false → (label.IsReleased W H xPos yPos button).2 = []) := by
  refine ⟨rfl, rfl, Label_IsReleased_snd label W H xPos yPos button, ?_, ?_, ?_, ?_⟩
  · rw [Label_IsReleased_snd]
    cases label.IsClick <;> cases label.OnRelease <;> simp
  · intro x0 y0 b0 hin hout
    rw [Label_IsClicked_of_hit label W H x0 y0 b0 hin, Label_IsReleased_snd]
    have hh : Label.hit { label with IsClick := true } W H xPos yPos = false := hout
    simp only [hh]
    cases label.OnRelease <;> rfl
  · intro x0 y0 b0 hc hout
    rw [Label_IsClicked_of_miss label W H x0 y0 b0 hout, Label_IsReleased_snd]
    simp [hc]
  · intro hc
    rw [Label_IsReleased_snd]
    simp [hc]

/-- Pressing `boxLabel` at `(5,5)` and releasing at `(50,50)` fires `OnRelease` once with
`inBox = false`; releasing with no press pending fires nothing; `IsClick` ends false. -/
theorem Label_IsReleased_fires_iff_pending_witness :
    ((boxLabel.IsClicked (0 : Int) 0 (5 : Int) 5 MouseClick.MouseLeft).1.IsReleased
        (0 : Int) 0 (50 : Int) 50 MouseClick.MouseLeft).2 =
      [{ fn := { tag := 2 }, receiver := Receiver.self, xPos := 50, yPos := 50,
         button := MouseClick.MouseLeft, isInBoundingBox := false }] ∧
    (boxLabel.IsReleased (0 : Int) 0 (5 : Int) 5 MouseClick.MouseLeft).2 = [] ∧
    (pressedLabel.IsReleased (0 : Int) 0 (50 : Int) 50 MouseClick.MouseLeft).1.IsClick = false :=
  ⟨(Label_IsReleased_fires_iff_pending boxLabel 0 0 (50 : Int) 50 MouseClick.MouseLeft).2.2.2.2.1
      5 5 MouseClick.MouseLeft (by decide) (by decide),
   (Label_IsReleased_fires_iff_pending boxLabel 0 0 (5 : Int) 5 MouseClick.MouseLeft).2.2.2.2.2.2
      rfl,
   (Label_IsReleased_fires_iff_pending pressedLabel 0 0 (50 : Int) 50
      MouseClick.MouseLeft).2.1⟩

end PressRelease

/-! ## Editing a text box -/

section Editing

variable {F32 : Type}

theorem take_pred_append_bar (buf : List Rune) :
    (buf ++ bar).take ((buf ++ bar).length - 1) = buf := by
  simp [bar]

theorem take_pred_pred_append_bar (buf : List Rune) :
    (buf ++ bar).take ((buf ++ bar).length - 2) = buf.dropLast := by
  have h : (buf ++ bar).length - 2 = buf.length - 1 := by simp [bar]
  rw [h, List.take_append_of_le_length (Nat.sub_le _ _), List.dropLast_eq_take]

theorem dropLast_append_bar (buf : List Rune) : (buf ++ bar).dropLast = buf := by
  simp [bar]

theorem int32_of_range (x : Int) (h1 : -2147483648 ≤ x) (h2 : x < 2147483648) :
    int32 x = x := by
  unfold int32
  omega

theorem rune_of_valid (key : Int)
    (h : (0 ≤ key ∧ key < 55296) ∨ (57344 ≤ key ∧ key ≤ 1114111)) : rune key = key := by
  unfold rune
  apply int32_of_range <;> omega

theorem validRune_of_valid (x : Int)
    (h : (0 ≤ x ∧ x < 55296) ∨ (57344 ≤ x ∧ x ≤ 1114111)) : validRune x = x := by
  unfold validRune
  rw [if_pos h]

theorem validRune_eq_bar (x : Int) (h : validRune x = 124) : x = 124 := by
  unfold validRune at h
  split_ifs at h
  · exact h
  · exact absurd h (by decide)

theorem theRune_letter (key : Int) (h1 : 65 ≤ key) (h2 : key ≤ 90) :
    theRune key false = key + 32 := by
  have hr : rune key = key := rune_of_valid key (Or.inl ⟨by omega, by omega⟩)
  have h3 : int32 (key + 32) = key + 32 := int32_of_range _ (by omega) (by omega)
  unfold theRune
  simp [h1, h2, hr, h3]

theorem theRune_shift (key : Int) : theRune key true = rune key := by
  unfold theRune
  simp

theorem theRune_other (key : Int) (withShift : Bool) (h : key < 65 ∨ 90 < key) :
    theRune key withShift = rune key := by
  unfold theRune
  have hn : ¬ (65 ≤ key ∧ key ≤ 90) := by omega
  cases withShift
  · by_cases h1 : 65 ≤ key
    · have h2 : ¬ key ≤ 90 := fun h2 => hn ⟨h1, h2⟩
      simp [h1, h2]
    · simp [h1]
  · simp

theorem theRune_ne_bar (key : Int) (withShift : Bool) (h : rune key ≠ 124) :
    theRune key withShift ≠ 124 := by
  by_cases hk : 65 ≤ key ∧ key ≤ 90
  · cases withShift
    · rw [theRune_letter key hk.1 hk.2]
      intro h'
      have h2 := hk.2
      linarith
    · rw [theRune_shift]
      exact h
  · rw [theRune_other key withShift (by omega)]
    exact h

theorem runesToString_append_singleton (buf : List Rune) (c : Rune) :
    runesToString (buf ++ [c]) = buf.map validRune ++ [validRune c] := by
  simp [runesToString]

theorem map_validRune_of_valid (buf : List Rune) (h : ∀ x ∈ buf, validRune x = x) :
    buf.map validRune = buf := by
  induction buf with
  | nil => rfl
  | cons a rest ih =>
    rw [List.map_cons, h a (List.mem_cons_self _ _),
      ih (fun x hx => h x (List.mem_cons_of_mem _ hx))]

theorem TextBox_AddCharacter_of_rendered (textbox : TextBox F32) (buf : List Rune) (key : Key)
    (withShift : Bool) (h : textbox.Text.String = buf ++ bar) :
    textbox.AddCharacter key withShift =
      if textbox.Text.HasRune (rune key) = true then
        some { textbox with
          Text := { textbox.Text with
            String := buf.map validRune ++ [validRune (theRune key withShift)] ++ bar } }
      else some textbox := by
  unfold TextBox.AddCharacter
  by_cases hr : textbox.Text.HasRune (rune key) = true
  · have hlen : (buf ++ bar).length ≠ 0 := by simp [bar]
    simp only [hr, if_true, h, hlen, if_false, take_pred_append_bar,
      runesToString_append_singleton]
    rfl
  · simp [hr]

theorem TextBox_Backspace_of_rendered (textbox : TextBox F32) (buf : List Rune)
    (h : textbox.Text.String = buf ++ bar) :
    textbox.Backspace =
      if textbox.IsEdit = true ∧ buf ≠ [] then
        { textbox with Text := { textbox.Text with String := buf.dropLast ++ bar } }
      else textbox := by
  unfold TextBox.Backspace
  cases he : textbox.IsEdit
  · simp
  · cases buf with
    | nil => simp [h, bar]
    | cons a rest =>
      have hlen : (a :: rest ++ bar).length > 1 := by simp [bar]
      simp only [if_true, h, hlen, take_pred_pred_append_bar]
      simp [Text.SetString, Text.SetPosition]

theorem TextBox_KeyPress_keeps_invariant (textbox : TextBox F32) (buf : List Rune) (key : Key)
    (withShift : Bool) (h : textbox.Text.String = buf ++ bar) (hbuf : (124 : Rune) ∉ buf)
    (hkey : rune key ≠ 124 ∨ textbox.Text.Font.HasRune 124 = false) :
    ∃ next buf', textbox.KeyPress key withShift = some next ∧
      next.Text.Font = textbox.Text.Font ∧ next.Text.String = buf' ++ bar ∧
      (124 : Rune) ∉ buf' := by
  unfold TextBox.KeyPress
  by_cases hb : key = KeyBackspace
  · rw [if_pos hb, TextBox_Backspace_of_rendered textbox buf h]
    by_cases hc : textbox.IsEdit = true ∧ buf ≠ []
    · rw [if_pos hc]
      exact ⟨_, buf.dropLast, rfl, rfl, rfl, fun hm => hbuf (List.mem_of_mem_dropLast hm)⟩
    · rw [if_neg hc]
      exact ⟨_, buf, rfl, rfl, h, hbuf⟩
  · rw [if_neg hb, TextBox_AddCharacter_of_rendered textbox buf key withShift h]
    by_cases hr : textbox.Text.HasRune (rune key) = true
    · rw [if_pos hr]
      refine ⟨_, buf.map validRune ++ [validRune (theRune key withShift)], rfl, rfl, rfl, ?_⟩
      have hne : rune key ≠ 124 := by
        rcases hkey with hk | hk
        · exact hk
        · intro hk'
          rw [hk'] at hr
          unfold Text.HasRune at hr
          rw [hk] at hr
          exact Bool.noConfusion hr
      intro hm
      rcases List.mem_append.1 hm with hm | hm
      · obtain ⟨y, hy, hy'⟩ := List.mem_map.1 hm
        rw [validRune_eq_bar y hy'] at hy
        exact hbuf hy
      · have hm' := (List.mem_singleton.1 hm).symm
        exact theRune_ne_bar key withShift hne (validRune_eq_bar _ hm')
    · rw [if_neg hr]
      exact ⟨_, buf, rfl, rfl, h, hbuf⟩

theorem TextBox_SetString_keeps_invariant (format : List Rune → List Arg → List Rune)
    (textbox : TextBox F32) (str : List Rune) (argv : List Arg)
    (hop : (TextBoxOp.SetString str argv).barFree format textbox.Text.Font) :
    (textbox.SetString format str argv).Text.Font = textbox.Text.Font ∧
    ∃ buf, (textbox.SetString format str argv).Text.String = buf ++ bar ∧
      (124 : Rune) ∉ buf := by
  unfold TextBox.SetString
  cases argv with
  | nil => exact ⟨rfl, str, rfl, hop.1 rfl⟩
  | cons a rest =>
    obtain ⟨t, ht, hbar⟩ := hop.2 (List.cons_ne_nil a rest)
    refine ⟨rfl, t, ?_, hbar⟩
    simp only [List.length_cons, Nat.succ_ne_zero, if_false, Text.SetStringf]
    exact ht

theorem TextBox_run_keeps_invariant (format : List Rune → List Arg → List Rune)
    (ops : List TextBoxOp) :
    ∀ (textbox : TextBox F32) (buf : List Rune), textbox.Text.String = buf ++ bar →
      (124 : Rune) ∉ buf → (∀ op ∈ ops, op.barFree format textbox.Text.Font) →
      ∃ last buf', TextBox.run format textbox ops = some last ∧
        last.Text.String = buf' ++ bar ∧ (124 : Rune) ∉ buf' := by
  induction ops with
  | nil =>
    intro textbox buf h hbuf _
    exact ⟨textbox, buf, rfl, h, hbuf⟩
  | cons op rest ih =>
    intro textbox buf h hbuf hops
    have hop := hops op (List.mem_cons_self _ _)
    have hrest : ∀ o ∈ rest, o.barFree format textbox.Text.Font :=
      fun o ho => hops o (List.mem_cons_of_mem _ ho)
    cases op with
    | SetString str argv =>
      obtain ⟨hfont, buf', hs, hb⟩ :=
        TextBox_SetString_keeps_invariant format textbox str argv hop
      exact ih (textbox.SetString format str argv) buf' hs hb (by rw [hfont]; exact hrest)
    | KeyPress key withShift =>
      obtain ⟨next, buf', hk, hfont, hs, hb⟩ :=
        TextBox_KeyPress_keeps_invariant textbox buf key withShift h hbuf hop
      obtain ⟨last, buf'', hl, hs', hb'⟩ := ih next buf' hs hb (by rw [hfont]; exact hrest)
      refine ⟨last, buf'', ?_, hs', hb'⟩
      simp only [TextBox.run, hk]
      exact hl

/-- C3 (as stated, refuted): starting from `SetString("")`, whose argument holds no
cursor bar, the single call `KeyPress(124, false)` (124 is the bar's own code, and the
font has that glyph) renders `"||"`: the stored buffer is `"|"`. The key `2^32 + 124`,
which `rune(key)` truncates to 124, does the same. -/
theorem TextBox_buffer_cursor_counterexample :
    (124 : Rune) ∉ ([] : List Rune) ∧
    (TextBox.run echoFormat (editBox.SetString echoFormat [] [])
        [TextBoxOp.KeyPress 124 false]).map (fun tb => tb.Text.String) = some [124, 124] ∧
    (TextBox.run echoFormat (editBox.SetString echoFormat [] [])
        [TextBoxOp.KeyPress 124 false]).map TextBox.buffer = some [124] ∧
    (124 : Rune) ∈ [(124 : Rune)] ∧
    (TextBox.run echoFormat (editBox.SetString echoFormat [] [])
        [TextBoxOp.KeyPress 4294967420 false]).map TextBox.buffer = some [124] := by
  decide

/-- C3 (amended): start from `SetString(s)` with no operands and no cursor bar in `s`,
and run any sequence of `SetString` and `KeyPress` calls in which every `SetString`
without operands has a string that holds no bar, every `SetString` with operands is
formatted to a bar-free text followed by the bar, and no pressed key converts to the
bar's code (`rune(key) = 124`, the key truncated to 32 bits) while the font has that
glyph. Then every call returns, and after every prefix of the sequence the rendered
string is the buffer followed by the bar and the buffer holds no bar. -/
theorem TextBox_buffer_holds_no_cursor (format : List Rune → List Arg → List Rune)
    (textbox : TextBox F32) (s : List Rune) (ops : List TextBoxOp) (hs : (124 : Rune) ∉ s)
    (hops : ∀ op ∈ ops, op.barFree format textbox.Text.Font) (n : Nat) :
    ∃ tb, TextBox.run format (textbox.SetString format s []) (ops.take n) = some tb ∧
      tb.Text.String = tb.buffer ++ bar ∧ (124 : Rune) ∉ tb.buffer := by
  obtain ⟨last, buf, hrun, hstr, hbuf⟩ :=
    TextBox_run_keeps_invariant format (ops.take n) (textbox.SetString format s []) s rfl hs
      (fun op hop => hops op (List.mem_of_mem_take hop))
  have hb : last.buffer = buf := by
    unfold TextBox.buffer
    rw [hstr, dropLast_append_bar]
  exact ⟨last, hrun, by rw [hb]; exact hstr, by rw [hb]; exact hbuf⟩

/-- From `"ab"`: typing `A` unshifted, backspace, `SetString("c")`, typing `B` shifted,
then the key `2^32 + 66` unshifted (it converts to rune 66 and lies outside `65..90`)
leaves the buffer `"cBB"`; a `SetString("d", x)` with one operand, formatted by
`echoFormat` to `"d|"`, then leaves the buffer `"d"`. -/
theorem TextBox_buffer_holds_no_cursor_witness :
    (∃ tb, TextBox.run echoFormat (editBox.SetString echoFormat [97, 98] [])
        ([TextBoxOp.KeyPress 65 false, TextBoxOp.KeyPress 259 false,
          TextBoxOp.SetString [99] [], TextBoxOp.KeyPress 66 true,
          TextBoxOp.KeyPress 4294967362 false,
          TextBoxOp.SetString [100] [{ tag := 1 }]].take 5) = some tb ∧
      tb.Text.String = tb.buffer ++ bar ∧ (124 : Rune) ∉ tb.buffer) ∧
    (TextBox.run echoFormat (editBox.SetString echoFormat [97, 98] [])
        [TextBoxOp.KeyPress 65 false, TextBoxOp.KeyPress 259 false,
          TextBoxOp.SetString [99] [], TextBoxOp.KeyPress 66 true,
          TextBoxOp.KeyPress 4294967362 false]).map TextBox.buffer = some [99, 66, 66] ∧
    (TextBox.run echoFormat (editBox.SetString echoFormat [97, 98] [])
        [TextBoxOp.KeyPress 65 false, TextBoxOp.KeyPress 259 false,
          TextBoxOp.SetString [99] [], TextBoxOp.KeyPress 66 true,
          TextBoxOp.KeyPress 4294967362 false,
          TextBoxOp.SetString [100] [{ tag := 1 }]]).map TextBox.buffer = some [100] :=
  ⟨TextBox_buffer_holds_no_cursor echoFormat editBox [97, 98]
      [TextBoxOp.KeyPress 65 false, TextBoxOp.KeyPress 259 false,
        TextBoxOp.SetString [99] [], TextBoxOp.KeyPress 66 true,
        TextBoxOp.KeyPress 4294967362 false, TextBoxOp.SetString [100] [{ tag := 1 }]]
      (by decide)
      (by
        intro op hop
        simp only [List.mem_cons, List.mem_singleton, List.not_mem_nil, or_false] at hop
        rcases hop with h | h | h | h | h | h <;> subst h
        · exact Or.inl (by decide)
        · exact Or.inl (by decide)
        · exact ⟨fun _ => by decide, fun hne => absurd rfl hne⟩
        · exact Or.inl (by decide)
        · exact Or.inl (by decide)
        · exact ⟨fun hnil => absurd hnil (by decide), fun _ => ⟨[100], rfl, by decide⟩⟩)
      5,
   by decide, by decide⟩

/-- C4 (as stated, refuted): on the rendered string `"a|"`, the key `2^32 + 65` pressed
without shift lies outside `65..90`, so the claim has the key itself appended (or, the
font having no glyph for that number, the string unchanged); the code tests the glyph of
`rune(key) = 65` and appends `A`. With a font of glyph range `32..65535`, the key
`0xD800` (a surrogate, not a valid code point) has a glyph and is appended as U+FFFD,
not as the key. -/
theorem TextBox_AddCharacter_key_counterexample :
    (editBox.SetString echoFormat [97] []).Text.String = [97] ++ bar ∧
    ¬ ((65 : Int) ≤ 4294967361 ∧ (4294967361 : Int) ≤ 90) ∧
    ((editBox.SetString echoFormat [97] []).AddCharacter 4294967361 false).map
        (fun tb => tb.Text.String) = some [97, 65, 124] ∧
    ((editBox.SetString echoFormat [97] []).AddCharacter 4294967361 false).map
        (fun tb => tb.Text.String) ≠ some ([97] ++ [4294967361] ++ bar) ∧
    ((editBox.SetString echoFormat [97] []).AddCharacter 4294967361 false).map
        (fun tb => tb.Text.String) ≠ some ([97] ++ bar) ∧
    (wideBox.SetString echoFormat [97] []).Text.HasRune 55296 = true ∧
    ((wideBox.SetString echoFormat [97] []).AddCharacter 55296 true).map
        (fun tb => tb.Text.String) = some [97, 65533, 124] ∧
    ((wideBox.SetString echoFormat [97] []).AddCharacter 55296 true).map
        (fun tb => tb.Text.String) ≠ some ([97] ++ [55296] ++ bar) := by
  decide

/-- C4 (amended): when the rendered string is `buf + "|"`, `TextBox.AddCharacter`
returns. The glyph test is made on `rune(key)`, the key truncated to 32 bits. If the
font has that glyph, the rendered string becomes `string(buf + c) + "|"`, where `c` is
`rune(key) + 32` when shift is not held and `65 <= key <= 90` and `rune(key)` otherwise,
and `string` replaces every rune that is not a valid code point by U+FFFD; nothing else
of the text box changes. If the font lacks the glyph the text box is unchanged. In
particular, for a key that is a valid code point and a `buf` of valid code points (what
the runes of a string are), the rendered string becomes `buf + c + "|"` with `c` the
lowercase letter `key + 32` for an unshifted key in `65..90` and the key itself
otherwise. -/
theorem TextBox_AddCharacter_appends (textbox : TextBox F32) (buf : List Rune) (key : Key)
    (withShift : Bool) (h : textbox.Text.String = buf ++ bar) :
    (textbox.Text.HasRune (rune key) = true →
      textbox.AddCharacter key withShift =
        some { textbox with
          Text := { textbox.Text with
            String := runesToString (buf ++ [theRune key withShift]) ++ bar } }) ∧
    (textbox.Text.HasRune (rune key) = false →
      textbox.AddCharacter key withShift = some textbox) ∧
    (((0 ≤ key ∧ key < 55296) ∨ (57344 ≤ key ∧ key ≤ 1114111)) →
      (∀ x ∈ buf, validRune x = x) →
      rune key = key ∧
      (textbox.Text.HasRune key = true → withShift = false → 65 ≤ key → key ≤ 90 →
        textbox.AddCharacter key withShift =
          some { textbox with
            Text := { textbox.Text with String := buf ++ [key + 32] ++ bar } }) ∧
      (textbox.Text.HasRune key = true → withShift = true →
        textbox.AddCharacter key withShift =
          some { textbox with Text := { textbox.Text with String := buf ++ [key] ++ bar } }) ∧
      (textbox.Text.HasRune key = true → (key < 65 ∨ 90 < key) →
        textbox.AddCharacter key withShift =
          some { textbox with Text := { textbox.Text with String := buf ++ [key] ++ bar } }) ∧
      (textbox.Text.HasRune key = false →
        textbox.AddCharacter key withShift = some textbox)) := by
  rw [TextBox_AddCharacter_of_rendered textbox buf key withShift h]
  refine ⟨?_, ?_, ?_⟩
  · intro hr
    rw [if_pos hr, runesToString_append_singleton]
  · intro hr
    rw [if_neg (by simp [hr])]
  · intro hkey hbuf
    have hrune : rune key = key := rune_of_valid key hkey
    have hvalid : validRune key = key := validRune_of_valid key hkey
    rw [hrune, map_validRune_of_valid buf hbuf]
    refine ⟨rfl, ?_, ?_, ?_, ?_⟩
    · intro hr hs h1 h2
      have hlow : validRune (key + 32) = key + 32 :=
        validRune_of_valid _ (Or.inl ⟨by linarith, by linarith⟩)
      rw [if_pos hr, hs, theRune_letter key h1 h2, hlow]
    · intro hr hs
      rw [if_pos hr, hs, theRune_shift, hrune, hvalid]
    · intro hr hk
      rw [if_pos hr, theRune_other key withShift hk, hrune, hvalid]
    · intro hr
      rw [if_neg (by simp [hr])]

/-- On the rendered string `"a|"`: key 65 unshifted appends `a`, key 65 shifted appends `A`,
key 49 appends `1`, key 300 (no glyph) changes nothing; key `2^32 + 65` unshifted is
tested and appended as rune 65. -/
theorem TextBox_AddCharacter_appends_witness :
    ((editBox.SetString echoFormat [97] []).AddCharacter 65 false).map
        (fun tb => tb.Text.String) = some [97, 97, 124] ∧
    ((editBox.SetString echoFormat [97] []).AddCharacter 65 true).map
        (fun tb => tb.Text.String) = some [97, 65, 124] ∧
    ((editBox.SetString echoFormat [97] []).AddCharacter 49 false).map
        (fun tb => tb.Text.String) = some [97, 49, 124] ∧
    (editBox.SetString echoFormat [97] []).AddCharacter 300 false =
      some (editBox.SetString echoFormat [97] []) ∧
    ((editBox.SetString echoFormat [97] []).AddCharacter 4294967361 false).map
        (fun tb => tb.Text.String) = some [97, 65, 124] :=
  ⟨congrArg (Option.map (fun tb => tb.Text.String))
      (((TextBox_AddCharacter_appends (editBox.SetString echoFormat [97] []) [97] 65 false
        rfl).2.2 (by decide) (by decide)).2.1 (by decide) rfl (by decide) (by decide)),
   congrArg (Option.map (fun tb => tb.Text.String))
      (((TextBox_AddCharacter_appends (editBox.SetString echoFormat [97] []) [97] 65 true
        rfl).2.2 (by decide) (by decide)).2.2.1 (by decide) rfl),
   congrArg (Option.map (fun tb => tb.Text.String))
      (((TextBox_AddCharacter_appends (editBox.SetString echoFormat [97] []) [97] 49 false
        rfl).2.2 (by decide) (by decide)).2.2.2.1 (by decide) (Or.inl (by decide))),
   ((TextBox_AddCharacter_appends (editBox.SetString echoFormat [97] []) [97] 300 false
      rfl).2.2 (by decide) (by decide)).2.2.2.2 (by decide),
   congrArg (Option.map (fun tb => tb.Text.String))
      ((TextBox_AddCharacter_appends (editBox.SetString echoFormat [97] []) [97] 4294967361
        false rfl).1 (by decide))⟩

/-- C5: when the rendered string is `buf + "|"`, `TextBox.Backspace` leaves the text box
unchanged when `IsEdit` is false and when `buf` is empty; otherwise the rendered string
becomes `buf` without its last character followed by `"|"`, nothing else changing. -/
theorem TextBox_Backspace_bounds (textbox : TextBox F32) (buf : List Rune)
    (h : textbox.Text.String = buf ++ bar) :
    (textbox.IsEdit = false → textbox.Backspace = textbox) ∧
    (buf = [] → textbox.Backspace = textbox) ∧
    (textbox.IsEdit = true → buf ≠ [] →
      textbox.Backspace =
        { textbox with Text := { textbox.Text with String := buf.dropLast ++ bar } } ∧
      textbox.Backspace.Text.String = buf.dropLast ++ bar ∧
      textbox.Backspace.buffer = buf.dropLast) := by
  rw [TextBox_Backspace_of_rendered textbox buf h]
  refine ⟨?_, ?_, ?_⟩
  · intro he
    rw [if_neg (by simp [he])]
  · intro hb
    rw [if_neg (by simp [hb])]
  · intro he hb
    rw [if_pos ⟨he, hb⟩]
    exact ⟨rfl, rfl, dropLast_append_bar _⟩

/-- Backspace on the buffer `"ab"` in edit mode yields `"a"`; with `IsEdit = false`, or
on the empty buffer, nothing changes. -/
theorem TextBox_Backspace_bounds_witness :
    (editBox.SetString echoFormat [97, 98] []).Backspace.buffer = [97] ∧
    (editBox.SetString echoFormat [97, 98] []).Backspace.Text.String = [97, 124] ∧
    TextBox.Backspace { editBox.SetString echoFormat [97, 98] [] with IsEdit := false } =
      { editBox.SetString echoFormat [97, 98] [] with IsEdit := false } ∧
    (editBox.SetString echoFormat [] []).Backspace = editBox.SetString echoFormat [] [] :=
  ⟨((TextBox_Backspace_bounds (editBox.SetString echoFormat [97, 98] []) [97, 98] rfl).2.2 rfl
      (by decide)).2.2,
   ((TextBox_Backspace_bounds (editBox.SetString echoFormat [97, 98] []) [97, 98] rfl).2.2 rfl
      (by decide)).2.1,
   (TextBox_Backspace_bounds { editBox.SetString echoFormat [97, 98] [] with IsEdit := false } [97, 98]
      rfl).1 rfl,
   (TextBox_Backspace_bounds (editBox.SetString echoFormat [] []) [] rfl).2.1 rfl⟩

end Editing

/-! ## Press and release of a text box -/

section TextBoxPress

variable {F32 F64 : Type} [Float32 F32] [Float64 F32 F64]

theorem TextBox_IsClicked_of_miss (textbox : TextBox F32) (W H : F32) (xPos yPos : F64)
    (button : MouseClick) (h : textbox.hit W H xPos yPos = false) :
    textbox.IsClicked W H xPos yPos button = ({ textbox with IsEdit := false }, []) := by
  unfold TextBox.hit at h
  unfold TextBox.IsClicked
  simp [h]

theorem TextBox_IsClicked_of_hit (textbox : TextBox F32) (W H : F32) (xPos yPos : F64)
    (button : MouseClick) (h : textbox.hit W H xPos yPos = true) :
    textbox.IsClicked W H xPos yPos button =
      ({ textbox with IsClick := true },
        match textbox.OnClick with
        | some f => [{ fn := f, xPos := xPos, yPos := yPos, button := button,
                       isInBoundingBox := true }]
        | none => []) := by
  unfold TextBox.hit at h
  unfold TextBox.IsClicked
  simp only [h, if_true]
  cases textbox.OnClick <;> rfl

theorem TextBox_IsReleased_fst (textbox : TextBox F32) (W H : F32) (xPos yPos : F64)
    (button : MouseClick) :
    (textbox.IsReleased W H xPos yPos button).1 =
      { textbox with IsEdit := (textbox.IsClick || textbox.IsEdit), IsClick := false } := by
  unfold TextBox.IsReleased
  cases hc : textbox.IsClick
  · simp
  · cases textbox.OnRelease <;> simp

/-- C6: `TextBox.IsClicked` at a position outside the hit box sets `IsEdit = false`,
changes nothing else and fires no callback; on a hit it leaves `IsEdit` as it was (and
sets `IsClick`). `TextBox.IsReleased` sets `IsEdit = true` exactly when `IsClick` was true
before the call and otherwise leaves `IsEdit` as it was; the resulting state does not
depend on the release position, and `IsClick` is false afterwards. -/
theorem TextBox_click_release_edit_flag (textbox : TextBox F32) (W H : F32) (xPos yPos : F64)
    (button : MouseClick) :
    (textbox.hit W H xPos yPos = false →
      textbox.IsClicked W H xPos yPos button = ({ textbox with IsEdit := false }, [])) ∧
    (textbox.hit W H xPos yPos = true →
      (textbox.IsClicked W H xPos yPos button).1 = { textbox with IsClick := true } ∧
      (textbox.IsClicked W H xPos yPos button).1.IsEdit = textbox.IsEdit) ∧
    (textbox.IsClick = true → (textbox.IsReleased W H xPos yPos button).1.IsEdit = true) ∧
    (textbox.IsClick = false →
      (textbox.IsReleased W H xPos yPos button).1.IsEdit = textbox.IsEdit) ∧
    ((textbox.IsReleased W H xPos yPos button).1.IsEdit = true ↔
      (textbox.IsClick = true ∨ textbox.IsEdit = true)) ∧
    (∀ (x1 y1 : F64) (b1 : MouseClick),
      (textbox.IsReleased W H x1 y1 b1).1 = (textbox.IsReleased W H xPos yPos button).1) ∧
    (textbox.IsReleased W H xPos yPos button).1.IsClick = false := by
  refine ⟨TextBox_IsClicked_of_miss textbox W H xPos yPos button, ?_, ?_, ?_, ?_, ?_, ?_⟩
  · intro h
    rw [TextBox_IsClicked_of_hit textbox W H xPos yPos button h]
    exact ⟨rfl, rfl⟩
  · intro hc
    rw [TextBox_IsReleased_fst]
    simp [hc]
  · intro hc
    rw [TextBox_IsReleased_fst]
    simp [hc]
  · rw [TextBox_IsReleased_fst]
    simp
  · intro x1 y1 b1
    rw [TextBox_IsReleased_fst, TextBox_IsReleased_fst]
  · rw [TextBox_IsReleased_fst]

/-- The text box `editBox` (screen box `(0,0)-(10,10)`, in edit mode): a click at
`(50,50)` ends editing without a callback; after a click at `(5,5)` a release at
`(50,50)` leaves it in edit mode with `IsClick` false. -/
theorem TextBox_click_release_edit_flag_witness :
    editBox.IsClicked (0 : Int) 0 (50 : Int) 50 MouseClick.MouseLeft =
      ({ editBox with IsEdit := false }, []) ∧
    ((TextBox.IsClicked { editBox with IsEdit := false } (0 : Int) 0 (5 : Int) 5
        MouseClick.MouseLeft).1.IsReleased (0 : Int) 0 (50 : Int) 50
        MouseClick.MouseLeft).1.IsEdit = true ∧
    ((TextBox.IsClicked { editBox with IsEdit := false } (0 : Int) 0 (5 : Int) 5
        MouseClick.MouseLeft).1.IsReleased (0 : Int) 0 (50 : Int) 50
        MouseClick.MouseLeft).1.IsClick = false :=
  ⟨(TextBox_click_release_edit_flag editBox 0 0 (50 : Int) 50 MouseClick.MouseLeft).1
      (by decide),
   (TextBox_click_release_edit_flag
      (TextBox.IsClicked { editBox with IsEdit := false } (0 : Int) 0 (5 : Int) 5
        MouseClick.MouseLeft).1 0 0 (50 : Int) 50 MouseClick.MouseLeft).2.2.1 (by decide),
   (TextBox_click_release_edit_flag
      (TextBox.IsClicked { editBox with IsEdit := false } (0 : Int) 0 (5 : Int) 5
        MouseClick.MouseLeft).1 0 0 (50 : Int) 50 MouseClick.MouseLeft).2.2.2.2.2.2⟩

end TextBoxPress

/-! ## Repeating a label operation -/

section Repeat

variable {F32 F64 : Type} [Float32 F32] [Float64 F32 F64]

theorem Label_IsHovered_eq (label : Label F32) (W H : F32) (xPos yPos : F64) :
    label.IsHovered W H xPos yPos =
      if label.hit W H xPos yPos = true ∧ label.OnHover = none then none
      else some ({ label with IsHover := label.hit W H xPos yPos },
        label.hoverCalls W H xPos yPos) := by
  unfold Label.IsHovered Label.hoverCalls Label.hit
  cases hh : inBox (label.OrthoToScreenCoord W H).1 (label.OrthoToScreenCoord W H).2 xPos yPos
  · simp [hh]
  · cases ho : label.OnHover with
    | none => simp [hh, ho]
    | some f => cases hs : label.Shadow <;> simp [hh, ho, hs]

theorem Label_IsHovered_returns (label : Label F32) (W H : F32) (xPos yPos : F64)
    (h : label.hit W H xPos yPos = false ∨ label.OnHover ≠ none) :
    label.IsHovered W H xPos yPos =
      some ({ label with IsHover := label.hit W H xPos yPos },
        label.hoverCalls W H xPos yPos) := by
  rw [Label_IsHovered_eq, if_neg]
  rintro ⟨h1, h2⟩
  rcases h with h | h
  · rw [h1] at h
    exact Bool.noConfusion h
  · exact h h2

/-- C9 (as stated, refuted): `pressedLabel` has a press pending and `OnRelease` bound. Two
calls of `IsReleased` at `(5,5)` compute the same hit result and leave the same state,
but the first invokes `OnRelease` and the second invokes nothing. -/
theorem Label_IsReleased_repeat_counterexample :
    (pressedLabel.IsReleased (0 : Int) 0 (5 : Int) 5 MouseClick.MouseLeft).2 =
      [{ fn := { tag := 2 }, receiver := Receiver.self, xPos := 5, yPos := 5,
         button := MouseClick.MouseLeft, isInBoundingBox := true }] ∧
    ((pressedLabel.IsReleased (0 : Int) 0 (5 : Int) 5 MouseClick.MouseLeft).1.IsReleased
        (0 : Int) 0 (5 : Int) 5 MouseClick.MouseLeft).2 = [] ∧
    ((pressedLabel.IsReleased (0 : Int) 0 (5 : Int) 5 MouseClick.MouseLeft).1.IsReleased
        (0 : Int) 0 (5 : Int) 5 MouseClick.MouseLeft).2 ≠
      (pressedLabel.IsReleased (0 : Int) 0 (5 : Int) 5 MouseClick.MouseLeft).2 := by
  decide

/-- C9 (amended): with callbacks that leave the label alone, repeating an operation with
the same inputs computes the same hit result and leaves the state the first call left.
A second `IsClicked` invokes the same callback as the first, and so does a second
`IsHovered` whenever the first returned (it returns on a miss and whenever `OnHover` is
bound). A second `IsReleased` invokes no callback, the first call having cleared
`IsClick`. -/
theorem Label_operations_repeat (label : Label F32) (W H : F32) (xPos yPos : F64)
    (button : MouseClick) :
    ((label.IsClicked W H xPos yPos button).1.IsClicked W H xPos yPos button =
      label.IsClicked W H xPos yPos button) ∧
    ((label.IsClicked W H xPos yPos button).1.hit W H xPos yPos = label.hit W H xPos yPos) ∧
    ((label.IsReleased W H xPos yPos button).1.IsReleased W H xPos yPos button =
      ((label.IsReleased W H xPos yPos button).1, [])) ∧
    ((label.IsReleased W H xPos yPos button).1.hit W H xPos yPos = label.hit W H xPos yPos) ∧
    (∀ r, label.IsHovered W H xPos yPos = some r →
      r.1.IsHovered W H xPos yPos = some r ∧ r.1.hit W H xPos yPos = label.hit W H xPos yPos) ∧
    ((label.hit W H xPos yPos = false ∨ label.OnHover ≠ none) →
      ∃ r, label.IsHovered W H xPos yPos = some r) := by
  refine ⟨?_, ?_, ?_, ?_, ?_, ?_⟩
  · cases hh : label.hit W H xPos yPos
    · rw [Label_IsClicked_of_miss label W H xPos yPos button hh,
        Label_IsClicked_of_miss label W H xPos yPos button hh]
    · rw [Label_IsClicked_of_hit label W H xPos yPos button hh]
      exact Label_IsClicked_of_hit _ W H xPos yPos button hh
  · cases hh : label.hit W H xPos yPos
    · rw [Label_IsClicked_of_miss label W H xPos yPos button hh]
      exact hh
    · rw [Label_IsClicked_of_hit label W H xPos yPos button hh]
      exact hh
  · apply Prod.ext
    · rfl
    · rw [Label_IsReleased_snd]
      rfl
  · rfl
  · intro r hr
    rw [Label_IsHovered_eq] at hr
    split_ifs at hr with hc
    cases hr
    refine ⟨?_, rfl⟩
    have hh : Label.hit { label with IsHover := label.hit W H xPos yPos } W H xPos yPos =
        label.hit W H xPos yPos := rfl
    rw [Label_IsHovered_eq, hh, if_neg hc]
    rfl
  · intro h
    exact ⟨_, Label_IsHovered_returns label W H xPos yPos h⟩

/-- On `boxLabel`: a second click at `(5,5)` repeats the first, a second hover at `(5,5)`
repeats the first, and `IsHovered` returns there since `OnHover` is bound. -/
theorem Label_operations_repeat_witness :
    ((boxLabel.IsClicked (0 : Int) 0 (5 : Int) 5 MouseClick.MouseLeft).1.IsClicked
        (0 : Int) 0 (5 : Int) 5 MouseClick.MouseLeft =
      boxLabel.IsClicked (0 : Int) 0 (5 : Int) 5 MouseClick.MouseLeft) ∧
    (∃ r, boxLabel.IsHovered (0 : Int) 0 (5 : Int) 5 = some r) ∧
    (boxLabel.IsHovered (0 : Int) 0 (5 : Int) 5).map (fun r => r.2) =
      some [{ fn := { tag := 3 }, receiver := Receiver.self, xPos := 5, yPos := 5,
              button := MouseClick.MouseUnclicked, isInBoundingBox := true }] :=
  ⟨(Label_operations_repeat boxLabel 0 0 (5 : Int) 5 MouseClick.MouseLeft).1,
   (Label_operations_repeat boxLabel 0 0 (5 : Int) 5 MouseClick.MouseLeft).2.2.2.2.2
      (Or.inr (by decide)),
   by decide⟩

end Repeat

/-! ## The menu -/

section MenuDispatch

variable {F32 F64 : Type} [Float32 F32] [Float64 F32 F64]

theorem clickLabels_eq (W H : F32) (xPos yPos : F64) (button : MouseClick)
    (labels : List (Label F32)) :
    ∀ i : Nat, clickLabels W H xPos yPos button i labels =
      (labels.map (fun l => (l.IsClicked W H xPos yPos button).1),
       (labels.enumFrom i).flatMap
         (fun p => (p.2.IsClicked W H xPos yPos button).2.map (fun c => (p.1, c)))) := by
  induction labels with
  | nil => intro i; rfl
  | cons l rest ih =>
    intro i
    simp only [clickLabels, ih (i + 1), List.map_cons, List.enumFrom_cons, List.flatMap_cons]

theorem hoverLabels_eq_some (W H : F32) (xPos yPos : F64) (labels : List (Label F32)) :
    ∀ i : Nat,
      (∀ l ∈ labels, l.hit W H xPos yPos = false ∨ l.OnHover ≠ none) →
      hoverLabels W H xPos yPos i labels =
        some (labels.map (fun l => { l with IsHover := l.hit W H xPos yPos }),
          (labels.enumFrom i).flatMap
            (fun p => (p.2.hoverCalls W H xPos yPos).map (fun c => (p.1, c)))) := by
  induction labels with
  | nil => intro i _; rfl
  | cons l rest ih =>
    intro i hall
    have hl := Label_IsHovered_returns l W H xPos yPos (hall l (List.mem_cons_self _ _))
    have hrest := ih (i + 1) (fun l' hl' => hall l' (List.mem_cons_of_mem _ hl'))
    simp only [hoverLabels, hl, hrest, List.map_cons, List.enumFrom_cons, List.flatMap_cons]

theorem hoverLabels_eq_none (W H : F32) (xPos yPos : F64) (labels : List (Label F32)) :
    ∀ i : Nat,
      (∃ l ∈ labels, l.hit W H xPos yPos = true ∧ l.OnHover = none) →
      hoverLabels W H xPos yPos i labels = none := by
  induction labels with
  | nil =>
    intro i h
    obtain ⟨l, hl, _⟩ := h
    cases hl
  | cons l rest ih =>
    intro i h
    by_cases hc : l.hit W H xPos yPos = true ∧ l.OnHover = none
    · have hl : l.IsHovered W H xPos yPos = none := by
        rw [Label_IsHovered_eq, if_pos hc]
      simp only [hoverLabels, hl]
    · obtain ⟨l', hl', hbad⟩ := h
      have hmem : l' ∈ rest := by
        rcases List.mem_cons.1 hl' with h1 | h1
        · rw [h1] at hbad
          exact absurd hbad hc
        · exact h1
      have hrest := ih (i + 1) ⟨l', hmem, hbad⟩
      simp only [hoverLabels, hrest]
      cases l.IsHovered W H xPos yPos <;> rfl

/-- `Menu.AddLabel` puts the new label behind the labels added before. -/
theorem Menu_AddLabel_appends (menu : Menu F32) (label : Label F32) (str : List Rune)
    (loaded : Text F32) :
    ∃ added : Label F32, (menu.AddLabel label str loaded).Labels = menu.Labels ++ [added] ∧
      added.Text.String = str :=
  ⟨_, rfl, rfl⟩

/-- On a visible menu `ScreenClick` hands `(x, WindowHeight - y)` to `IsClicked` of every
label, once each and in list order, whether or not an earlier label was hit. -/
theorem Menu_ScreenClick_forwards (menu : Menu F32) (xPos yPos : F64) (button : MouseClick)
    (h : menu.Visible = true) :
    menu.ScreenClick xPos yPos button =
      ({ menu with
          Labels := menu.Labels.map (fun l =>
            (l.IsClicked menu.WindowWidth menu.WindowHeight xPos
              (Float64.ofFloat32 menu.WindowHeight - yPos) button).1) },
        (menu.Labels.enumFrom 0).flatMap (fun p =>
          (p.2.IsClicked menu.WindowWidth menu.WindowHeight xPos
            (Float64.ofFloat32 menu.WindowHeight - yPos) button).2.map (fun c => (p.1, c)))) := by
  unfold Menu.ScreenClick
  simp only [h, Bool.not_true, Bool.false_eq_true, if_false, clickLabels_eq]

/-- On a visible menu in which every label under the flipped pointer has `OnHover`
bound, `ScreenHover` returns and hands `(x, WindowHeight - y)` to `IsHovered` of every
label, once each and in list order. -/
theorem Menu_ScreenHover_forwards (menu : Menu F32) (xPos yPos : F64)
    (h : menu.Visible = true)
    (hall : ∀ l ∈ menu.Labels,
      l.hit menu.WindowWidth menu.WindowHeight xPos
        (Float64.ofFloat32 menu.WindowHeight - yPos) = false ∨ l.OnHover ≠ none) :
    menu.ScreenHover xPos yPos =
      some ({ menu with
          Labels := menu.Labels.map (fun l =>
            { l with
              IsHover := l.hit menu.WindowWidth menu.WindowHeight xPos
                (Float64.ofFloat32 menu.WindowHeight - yPos) }) },
        (menu.Labels.enumFrom 0).flatMap (fun p =>
          (p.2.hoverCalls menu.WindowWidth menu.WindowHeight xPos
            (Float64.ofFloat32 menu.WindowHeight - yPos)).map (fun c => (p.1, c)))) := by
  unfold Menu.ScreenHover
  simp only [h, Bool.not_true, Bool.false_eq_true, if_false]
  rw [hoverLabels_eq_some _ _ _ _ _ 0 hall]

/-- On a visible menu holding a label that is under the flipped pointer and has no
`OnHover` bound, `ScreenHover` panics. -/
theorem Menu_ScreenHover_panics (menu : Menu F32) (xPos yPos : F64)
    (h : menu.Visible = true)
    (hbad : ∃ l ∈ menu.Labels,
      l.hit menu.WindowWidth menu.WindowHeight xPos
        (Float64.ofFloat32 menu.WindowHeight - yPos) = true ∧ l.OnHover = none) :
    menu.ScreenHover xPos yPos = none := by
  unfold Menu.ScreenHover
  simp only [h, Bool.not_true, Bool.false_eq_true, if_false]
  rw [hoverLabels_eq_none _ _ _ _ _ 0 hbad]

/-- C7: on a menu with `Visible = false`, `ScreenClick` and `ScreenHover` return the menu
as it was, labels included, and invoke no callback. -/
theorem Menu_hidden_dispatch_changes_nothing (menu : Menu F32) (xPos yPos : F64)
    (button : MouseClick) (h : menu.Visible = false) :
    menu.ScreenClick xPos yPos button = (menu, []) ∧
    menu.ScreenHover xPos yPos = some (menu, []) := by
  unfold Menu.ScreenClick Menu.ScreenHover
  simp [h]

/-- A hidden menu with two labels under the pointer: neither dispatch changes it. -/
theorem Menu_hidden_dispatch_changes_nothing_witness :
    (boxMenu false [boxLabel, plainLabel]).ScreenClick (5 : Int) 5 MouseClick.MouseLeft =
      (boxMenu false [boxLabel, plainLabel], []) ∧
    (boxMenu false [boxLabel, plainLabel]).ScreenHover (5 : Int) 5 =
      some (boxMenu false [boxLabel, plainLabel], []) :=
  Menu_hidden_dispatch_changes_nothing (boxMenu false [boxLabel, plainLabel]) (5 : Int) 5
    MouseClick.MouseLeft rfl

/-- C8 (the code at the failing input): a visible menu over a window of height 20 holds
`plainLabel` (no `OnHover` bound) and then `boxLabel`, both with screen box
`(0,10)-(10,20)`. `ScreenHover(5, 5)` flips the pointer to `(5, 15)`, which hits both.
`IsHovered` of the first label calls its nil `OnHover` and panics, so the second label
is never handed the position, although `IsHovered` on it would return and invoke its
`OnHover`. `ScreenClick(5, 5)` on the same menu reaches both labels. -/
theorem Menu_ScreenHover_unbound_OnHover :
    (boxMenu true [plainLabel, boxLabel]).Visible = true ∧
    plainLabel.hit (0 : Int) 20 (5 : Int) 15 = true ∧
    plainLabel.OnHover = none ∧
    plainLabel.IsHovered (0 : Int) 20 (5 : Int) 15 = none ∧
    (boxMenu true [plainLabel, boxLabel]).ScreenHover (5 : Int) 5 = none ∧
    (boxLabel.IsHovered (0 : Int) 20 (5 : Int) 15).map (fun r => (r.1.IsHover, r.2)) =
      some (true,
        [{ fn := { tag := 3 }, receiver := Receiver.self, xPos := 5, yPos := 15,
           button := MouseClick.MouseUnclicked, isInBoundingBox := true }]) ∧
    ((boxMenu true [plainLabel, boxLabel]).ScreenClick (5 : Int) 5 MouseClick.MouseLeft).1.Labels.map
        (fun l => l.IsClick) = [true, true] ∧
    ((boxMenu true [plainLabel, boxLabel]).ScreenClick (5 : Int) 5 MouseClick.MouseLeft).2 =
      [(1, { fn := { tag := 1 }, receiver := Receiver.self, xPos := 5, yPos := 15,
             button := MouseClick.MouseLeft, isInBoundingBox := true })] := by
  refine ⟨rfl, by decide, rfl, rfl, rfl, by decide, by decide, by decide⟩

end MenuDispatch

/-! ## Toggling the menu -/

section Toggle

variable {F32 : Type}

theorem Label_Reset_eq (label : Label F32) :
    label.Reset =
      { label with
        Text := { label.Text with Scale := label.Text.ScaleMin },
        Shadow := label.Shadow.map (fun sh =>
          { sh with
            Label := { sh.Label with
              Text := { sh.Label.Text with Scale := label.Text.ScaleMin } } }) } := by
  unfold Label.Reset
  cases h : label.Shadow <;> simp [Text.SetScale, h]

/-- C10: `Menu.Toggle` negates `Visible` and changes no other field of the menu but the
labels. The label list keeps its length and order; every label keeps all its fields,
`IsClick` and `IsHover` among them, except that its text scale becomes its minimum scale
`ScaleMin`, whatever it was before, and that the text scale of an attached shadow
becomes the label's `ScaleMin` as well. -/
theorem Menu_Toggle_resets_scale (menu : Menu F32) :
    menu.Toggle.Visible = (!menu.Visible) ∧
    menu.Toggle = { menu with Visible := !menu.Visible, Labels := menu.Toggle.Labels } ∧
    menu.Toggle.Labels.length = menu.Labels.length ∧
    (∀ (i : Nat) (h : i < menu.Labels.length) (h' : i < menu.Toggle.Labels.length),
      (menu.Toggle.Labels.get ⟨i, h'⟩).Text.Scale = (menu.Labels.get ⟨i, h⟩).Text.ScaleMin ∧
      (menu.Toggle.Labels.get ⟨i, h'⟩).Text.Scale =
        (menu.Toggle.Labels.get ⟨i, h'⟩).Text.ScaleMin ∧
      (∀ sh, (menu.Toggle.Labels.get ⟨i, h'⟩).Shadow = some sh →
        sh.Label.Text.Scale = (menu.Toggle.Labels.get ⟨i, h'⟩).Text.ScaleMin) ∧
      (menu.Toggle.Labels.get ⟨i, h'⟩).IsClick = (menu.Labels.get ⟨i, h⟩).IsClick ∧
      (menu.Toggle.Labels.get ⟨i, h'⟩).IsHover = (menu.Labels.get ⟨i, h⟩).IsHover ∧
      menu.Toggle.Labels.get ⟨i, h'⟩ =
        { menu.Labels.get ⟨i, h⟩ with
          Text := { (menu.Labels.get ⟨i, h⟩).Text with
            Scale := (menu.Labels.get ⟨i, h⟩).Text.ScaleMin },
          Shadow := (menu.Labels.get ⟨i, h⟩).Shadow.map (fun sh =>
            { sh with
              Label := { sh.Label with
                Text := { sh.Label.Text with
                  Scale := (menu.Labels.get ⟨i, h⟩).Text.ScaleMin } } }) }) := by
  refine ⟨rfl, rfl, by simp [Menu.Toggle], ?_⟩
  intro i h h'
  have hget : menu.Toggle.Labels.get ⟨i, h'⟩ = (menu.Labels.get ⟨i, h⟩).Reset := by
    simp [Menu.Toggle]
  rw [hget, Label_Reset_eq]
  refine ⟨rfl, rfl, ?_, rfl, rfl, rfl⟩
  intro sh hsh
  obtain ⟨sh0, _, hsh0⟩ := Option.map_eq_some'.1 hsh
  rw [← hsh0]

/-- Toggling a hidden menu whose hovered label and shadow have grown to scale 3 (the
label's minimum scale is 1, the shadow's own is 2): the menu becomes visible, both
scales become 1, `IsHover` and `IsClick` stay as they were. -/
theorem Menu_Toggle_resets_scale_witness :
    (boxMenu false [grownLabel]).Toggle.Visible = true ∧
    (boxMenu false [grownLabel]).Toggle.Labels.map (fun l => l.Text.Scale) = [1] ∧
    (boxMenu false [grownLabel]).Toggle.Labels.map
        (fun l => l.Shadow.map (fun sh => sh.Label.Text.Scale)) = [some 1] ∧
    (boxMenu false [grownLabel]).Toggle.Labels.map (fun l => (l.IsHover, l.IsClick)) =
      [(true, false)] ∧
    (boxMenu false [grownLabel]).Toggle.Labels.length = 1 :=
  ⟨(Menu_Toggle_resets_scale (boxMenu false [grownLabel])).1, by decide, by decide, by decide,
   (Menu_Toggle_resets_scale (boxMenu false [grownLabel])).2.2.1⟩

end Toggle

/-! ## Hovering a label -/

section Hover

variable {F32 F64 : Type} [Float32 F32] [Float64 F32 F64]

theorem Label_hoverCalls_mem (label : Label F32) (W H : F32) (xPos yPos : F64) (c : Call F64)
    (hc : c ∈ label.hoverCalls W H xPos yPos) :
    label.hit W H xPos yPos = true ∧ label.OnHover = some c.fn ∧ c.xPos = xPos ∧
      c.yPos = yPos ∧ c.button = MouseClick.MouseUnclicked ∧ c.isInBoundingBox = true := by
  unfold Label.hoverCalls at hc
  cases hh : label.hit W H xPos yPos
  · simp [hh] at hc
  · cases ho : label.OnHover with
    | none => simp [hh, ho] at hc
    | some f =>
      cases hs : label.Shadow with
      | none =>
        simp only [hh, ho, hs, if_true, List.mem_singleton] at hc
        subst hc
        exact ⟨rfl, rfl, rfl, rfl, rfl, rfl⟩
      | some sh =>
        simp only [hh, ho, hs, if_true, List.mem_cons, List.mem_singleton, List.not_mem_nil,
          or_false] at hc
        rcases hc with hc | hc <;> subst hc <;> exact ⟨rfl, rfl, rfl, rfl, rfl, rfl⟩

/-- What `Label.IsHovered` does whenever it returns, and when it returns. It panics
exactly on a hit with `OnHover` unbound. It returns on every miss and whenever `OnHover`
is bound; the label it leaves differs from the one it was given in `IsHover` alone, which
holds the hit result, so `IsClick` is as before; on a miss no callback is invoked; every
callback invoked is the label's `OnHover`, invoked on a hit with `inBox = true` and the
button `MouseUnclicked`. No invocation of `OnNotHover` is made: the calls are all
`LabelInteraction` calls. -/
theorem Label_IsHovered_effects (label : Label F32) (W H : F32) (xPos yPos : F64) :
    (label.IsHovered W H xPos yPos = none ↔
      (label.hit W H xPos yPos = true ∧ label.OnHover = none)) ∧
    ((label.hit W H xPos yPos = false ∨ label.OnHover ≠ none) →
      label.IsHovered W H xPos yPos =
        some ({ label with IsHover := label.hit W H xPos yPos },
          label.hoverCalls W H xPos yPos)) ∧
    (∀ r, label.IsHovered W H xPos yPos = some r →
      r.1 = { label with IsHover := label.hit W H xPos yPos } ∧
      r.1.IsHover = label.hit W H xPos yPos ∧
      r.1.IsClick = label.IsClick ∧
      (label.hit W H xPos yPos = false → r.2 = []) ∧
      (∀ c ∈ r.2, label.hit W H xPos yPos = true ∧ label.OnHover = some c.fn ∧
        c.button = MouseClick.MouseUnclicked ∧ c.isInBoundingBox = true)) := by
  refine ⟨?_, Label_IsHovered_returns label W H xPos yPos, ?_⟩
  · rw [Label_IsHovered_eq]
    by_cases hc : label.hit W H xPos yPos = true ∧ label.OnHover = none
    · simp [hc]
    · rw [if_neg hc]
      simp [hc]
  · intro r hr
    rw [Label_IsHovered_eq] at hr
    split_ifs at hr with hc
    cases hr
    refine ⟨rfl, rfl, rfl, ?_, ?_⟩
    · intro hm
      simp [Label.hoverCalls, hm]
    · intro c hmem
      obtain ⟨h1, h2, _, _, h5, h6⟩ := Label_hoverCalls_mem label W H xPos yPos c hmem
      exact ⟨h1, h2, h5, h6⟩

/-- C11 (the code at the failing input): `plainLabel` has no `OnHover` bound and the
screen box `(0,0)-(10,10)`. `IsHovered(5, 5)` is a hit, and the call of the nil `OnHover`
panics, so the operation does not complete. The sibling `IsClicked` at the same position
checks its callback for nil and returns with no call. `IsHovered` on the same label at
the miss `(50, 50)` returns with `IsHover = false` and no call, and on `boxLabel`, whose
`OnHover` is bound, `IsHovered(5, 5)` returns with `IsHover = true`, `IsClick` unchanged
and one `OnHover` call. -/
theorem Label_IsHovered_unbound_OnHover :
    plainLabel.OnHover = none ∧
    plainLabel.hit (0 : Int) 0 (5 : Int) 5 = true ∧
    plainLabel.IsHovered (0 : Int) 0 (5 : Int) 5 = none ∧
    plainLabel.IsClicked (0 : Int) 0 (5 : Int) 5 MouseClick.MouseLeft =
      ({ plainLabel with IsClick := true }, []) ∧
    plainLabel.IsHovered (0 : Int) 0 (50 : Int) 50 =
      some ({ plainLabel with IsHover := false }, []) ∧
    (boxLabel.IsHovered (0 : Int) 0 (5 : Int) 5).map (fun r => (r.1.IsHover, r.1.IsClick, r.2)) =
      some (true, false,
        [{ fn := { tag := 3 }, receiver := Receiver.self, xPos := 5, yPos := 5,
           button := MouseClick.MouseUnclicked, isInBoundingBox := true }]) := by
  refine ⟨rfl, by decide, rfl, rfl, rfl, by decide⟩

end Hover

end Glmenu
